import Mathlib

/-!
Shallow embedding of `src/ui/hooks/useCurrencyDisplay.js` from the
metamask-extension repository, together with models of the external
collaborators the hook calls (the `Numeric` conversion pipeline, the
wei-to-fiat conversion helper, the fiat formatter and the test-network
ticker table), which live outside `src/` and are therefore modelled from
the specification.

JavaScript conventions captured here:
* `undefined` values are `Option.none`; `===` on possibly-undefined
  strings is `Option` equality (`undefined === undefined` is `true`).
* string truthiness: the empty string is falsy, every other string truthy;
  `x || y` on strings picks `y` exactly when `x` is falsy.
* number truthiness: `0` is falsy; a supplied `numberOfDecimals` of `0`
  therefore falls back to the default via `||`.
* template interpolation renders `null` as the text "null".
-/

/-- JavaScript truthiness of a possibly-undefined string:
`undefined` and `""` are falsy. -/
def jsTruthy : Option String → Bool
  | none => false
  | some s => !s.isEmpty

/-- JavaScript truthiness of a possibly-undefined number
(the conversion rate): `undefined` and `0` are falsy. -/
def jsTruthyRat : Option ℚ → Bool
  | none => false
  | some r => decide (r ≠ 0)

/-- JavaScript `a || b` on possibly-undefined strings. -/
def jsOrStr (a b : Option String) : Option String :=
  if jsTruthy a then a else b

/-- JavaScript `n || d` on a possibly-undefined number option where the
fallback `d` is a fixed default: `undefined` and `0` both yield `d`. -/
def jsOrNat : Option Nat → Nat → Nat
  | none, d => d
  | some 0, d => d
  | some n, _ => n

/-- Lookup table for hexadecimal digit characters. -/
def hexDigitTable : List (Char × Nat) :=
  [('0', 0), ('1', 1), ('2', 2), ('3', 3), ('4', 4), ('5', 5), ('6', 6), ('7', 7),
   ('8', 8), ('9', 9), ('a', 10), ('b', 11), ('c', 12), ('d', 13), ('e', 14), ('f', 15),
   ('A', 10), ('B', 11), ('C', 12), ('D', 13), ('E', 14), ('F', 15)]

/-- Numeric value of a hexadecimal digit character, `none` otherwise. -/
def hexDigitVal (c : Char) : Option Nat :=
  (hexDigitTable.find? (fun p => p.1 == c)).map (fun p => p.2)

/-- Lookup table for decimal digit characters. -/
def decDigitTable : List (Char × Nat) :=
  [('0', 0), ('1', 1), ('2', 2), ('3', 3), ('4', 4), ('5', 5), ('6', 6), ('7', 7),
   ('8', 8), ('9', 9)]

/-- Numeric value of a decimal digit character, `none` otherwise. -/
def decDigitVal (c : Char) : Option Nat :=
  (decDigitTable.find? (fun p => p.1 == c)).map (fun p => p.2)

/-- Horner-style accumulation of digits; a single invalid digit poisons
the whole parse (models `NaN`). -/
def foldDigits (base : Nat) (dv : Char → Option Nat) : Option Nat → List Char → Option Nat
  | none, _ => none
  | some a, [] => some a
  | some a, c :: cs =>
      match dv c with
      | some d => foldDigits base dv (some (base * a + d)) cs
      | none => none

/-- Parse a non-empty list of digits in the given base; the empty list is
not a number. -/
def parseDigits (base : Nat) (dv : Char → Option Nat) (cs : List Char) : Option Nat :=
  if cs = [] then none else foldDigits base dv (some 0) cs

/-- Drop a leading `0x` / `0X` marker when present. -/
def stripHexMarker : List Char → List Char
  | [] => []
  | [c1] => [c1]
  | c1 :: c2 :: rest =>
      if c1 = '0' ∧ (c2 = 'x' ∨ c2 = 'X') then rest else c1 :: c2 :: rest

/-- Modelled from the spec: the base-16 integer reading of the input
amount, as performed by the external `Numeric(inputValue, 16)` parser
(which accepts an optional `0x` marker); `none` models a `NaN` parse. -/
def hexToNat (s : String) : Option Nat :=
  parseDigits 16 hexDigitVal (stripHexMarker s.data)

/-- Character-list worker for `jsNumber`. -/
def jsNumberChars : List Char → Option Nat
  | [] => some 0
  | [c1] => parseDigits 10 decDigitVal [c1]
  | c1 :: c2 :: rest =>
      if c1 = '0' ∧ (c2 = 'x' ∨ c2 = 'X') then parseDigits 16 hexDigitVal rest
      else parseDigits 10 decDigitVal (c1 :: c2 :: rest)

/-- Model of the JavaScript `Number(s)` coercion on the string shapes the
hook can receive: the empty string coerces to `0`, a `0x`-marked string is
read as hexadecimal, a string of decimal digits is read as decimal, and
anything else is `NaN` (`none`). -/
def jsNumber (s : String) : Option Nat :=
  jsNumberChars s.data

/-- Strip trailing zero characters (fractional part rendering). -/
def stripTrailingZeros (cs : List Char) : List Char :=
  (cs.reverse.dropWhile (fun c => c = '0')).reverse

/-- Left-pad a digit list with zeros up to width `p`. -/
def padLeftZeros (cs : List Char) (p : Nat) : List Char :=
  List.replicate (p - cs.length) '0' ++ cs

/-- Render `n / 10 ^ p` as a base-10 decimal string with no trailing
zeros and no decimal point when the fraction is zero (the rendering the
external big-number library produces). -/
def decimalString (n p : Nat) : String :=
  let ip := n / 10 ^ p
  let fp := n % 10 ^ p
  if fp = 0 then Nat.repr ip
  else Nat.repr ip ++ "." ++ String.mk (stripTrailingZeros (padLeftZeros (Nat.repr fp).data p))

/-- The denominations of the native currency (`EtherDenomination` in
shared/constants/common, outside src). -/
inductive EtherDenomination where
  | WEI
  | GWEI
  | ETH
deriving DecidableEq, Repr

/-- How many wei make one unit of the denomination. -/
def denomDivisor : EtherDenomination → Nat
  | EtherDenomination.WEI => 1
  | EtherDenomination.GWEI => 1000000000
  | EtherDenomination.ETH => 1000000000000000000

/-- Modelled from the spec: the external `Numeric` pipeline
`new Numeric(inputValue, 16, WEI).toDenomination(denom).round(precision).toBase(10).toString()` —
parse the hex wei amount, scale it into the requested denomination, round
to `precision` decimal places (half-up) and render in base 10. An
unparseable input renders as "NaN". -/
def ethDisplayValue (inputValue : String) (denom : EtherDenomination) (precision : Nat) : String :=
  match hexToNat inputValue with
  | none => "NaN"
  | some w =>
      let d := denomDivisor denom
      decimalString ((2 * w * 10 ^ precision + d) / (2 * d)) precision

/-- Sentinel shown when a nonzero amount rounds to zero at the display
precision (`MIN_DISPLAY_AMOUNT` in the source). -/
def MIN_DISPLAY_AMOUNT : String := "<0.000001"

/-- Default rounding precision on the native-currency path
(`DEFAULT_PRECISION_DECIMALS` in the source). -/
def DEFAULT_PRECISION_DECIMALS : Nat := 6

/-- Lines 67-75 of the source: convert to the requested denomination at
the given precision, then substitute the sentinel when the rendered
result is "0" while the raw input is truthy and coerces to a nonzero
number (`ethDisplayValue === '0' && inputValue && Number(inputValue) !== 0`). -/
def nativeCurrencyValue (inputValue : String) (denom : EtherDenomination) (precision : Nat) : String :=
  let e := ethDisplayValue inputValue denom precision
  if e = "0" ∧ inputValue ≠ "" ∧ jsNumber inputValue ≠ some 0 then MIN_DISPLAY_AMOUNT
  else e

/-- Modelled from the spec: `getValueFromWeiHex` (shared/modules/conversion.utils,
outside src) converts the hex wei amount through the native currency into
the target currency with the supplied rate, rounds to `numberOfDecimals`
decimal places and renders in base 10. -/
def getValueFromWeiHex (value : String) (fromCurrency toCurrency : Option String)
    (conversionRate : Option ℚ) (numberOfDecimals : Nat)
    (toDenomination : Option EtherDenomination) : String :=
  match hexToNat value, conversionRate with
  | some w, some r =>
      let q : ℚ := (w : ℚ) * r / (denomDivisor (toDenomination.getD EtherDenomination.ETH) : ℚ)
      let scaled : ℤ := Rat.floor (q * (10 ^ numberOfDecimals : ℚ) + 1 / 2)
      if scaled < 0 then "-" ++ decimalString scaled.natAbs numberOfDecimals
      else decimalString scaled.natAbs numberOfDecimals
  | _, _ => "NaN"

/-- Modelled from the spec: `formatCurrency` (ui/helpers/utils/confirm-tx.util,
outside src) applies locale/currency-aware fiat formatting; its exact
output shape is an external collaborator contract the spec leaves
unspecified, so it is modelled as returning the numeric string unchanged. -/
def formatCurrency (value : String) (currency : Option String) : String :=
  value

/-- Modelled from the spec: the values of `TEST_NETWORK_TICKER_MAP`
(shared/constants/network, outside src) — the fixed set of known
test-network native ticker symbols whose casing is preserved. -/
def TEST_NETWORK_TICKER_VALUES : List String :=
  ["GoerliETH", "SepoliaETH", "LineaETH", "LineaSepoliaETH"]

/-- `Object.values(TEST_NETWORK_TICKER_MAP).includes(currency)`; membership
of `undefined` is false. -/
def tickerIncludes : Option String → Bool
  | none => false
  | some c => decide (c ∈ TEST_NETWORK_TICKER_VALUES)

/-- The options record destructured by the hook (`UseCurrencyOptions`
plus the rest-parameter fields `suffix` and `hideLabel`); `pfx` stands
for the `prefix` option, whose source name is a Lean keyword. -/
structure UseCurrencyOptions where
  displayValue : Option String := none
  pfx : Option String := none
  numberOfDecimals : Option Nat := none
  denomination : Option EtherDenomination := none
  currency : Option String := none
  suffix : Option String := none
  hideLabel : Bool := false
deriving DecidableEq, Repr

/-- The three store selector reads the hook performs. -/
structure MetaMaskState where
  currentCurrency : Option String := none
  nativeCurrency : Option String := none
  conversionRate : Option ℚ := none
deriving DecidableEq, Repr

/-- The structured breakdown returned as the second tuple component
(`CurrencyDisplayParts`); `pfx` stands for the `prefix` field. -/
structure CurrencyDisplayParts where
  pfx : Option String
  value : Option String
  suffix : Option String
deriving DecidableEq, Repr

/-- The `useMemo` body of the hook (lines 59-90): resolve the value
component. `opts.currency = st.currentCurrency` is
`isUserPreferredCurrency`; `none` models the final `return null`. -/
def resolveValue (inputValue : String) (opts : UseCurrencyOptions) (st : MetaMaskState) : Option String :=
  if jsTruthy opts.displayValue then opts.displayValue
  else if opts.currency = st.nativeCurrency ∨
      (opts.currency ≠ st.currentCurrency ∧ jsTruthy st.nativeCurrency = false) then
    some (nativeCurrencyValue inputValue (opts.denomination.getD EtherDenomination.ETH)
      (jsOrNat opts.numberOfDecimals DEFAULT_PRECISION_DECIMALS))
  else if opts.currency = st.currentCurrency ∧ jsTruthyRat st.conversionRate = true then
    some (formatCurrency
      (getValueFromWeiHex inputValue st.nativeCurrency opts.currency st.conversionRate
        (jsOrNat opts.numberOfDecimals 2) opts.denomination)
      opts.currency)
  else none

/-- Lines 101-113 of the source: resolve the suffix. When `hideLabel` is
set the variable is never assigned (`undefined`); otherwise a currency in
the test-network ticker set keeps its casing, any other currency is
upper-cased, and a truthy caller-supplied suffix wins. -/
def resolveSuffix (opts : UseCurrencyOptions) : Option String :=
  if opts.hideLabel then none
  else
    let currencyTickerSymbol : Option String :=
      if tickerIncludes opts.currency then opts.currency
      else Option.map String.toUpper opts.currency
    jsOrStr opts.suffix currencyTickerSymbol

/-- The hook itself: returns the composed display string
(`` `${prefix || ''}${value}${suffix ? ` ${suffix}` : ''}` ``, where a
null value interpolates as the text "null") together with the parts
record `{ prefix, value, suffix }`. -/
def useCurrencyDisplay (inputValue : String) (opts : UseCurrencyOptions) (st : MetaMaskState) :
    String × CurrencyDisplayParts :=
  let value := resolveValue inputValue opts st
  let suffix := resolveSuffix opts
  (opts.pfx.getD "" ++ value.getD "null" ++ (if jsTruthy suffix then " " ++ suffix.getD "" else ""),
   { pfx := opts.pfx, value := value, suffix := suffix })

/-! ### Supporting lemmas -/

/-- The hook returns the resolved value in the parts record. -/
theorem useCurrencyDisplay_value (inputValue : String) (opts : UseCurrencyOptions) (st : MetaMaskState) :
    (useCurrencyDisplay inputValue opts st).2.value = resolveValue inputValue opts st := rfl

/-- The hook returns the resolved suffix in the parts record. -/
theorem useCurrencyDisplay_suffix (inputValue : String) (opts : UseCurrencyOptions) (st : MetaMaskState) :
    (useCurrencyDisplay inputValue opts st).2.suffix = resolveSuffix opts := rfl

/-- Every denomination divisor is positive. -/
theorem denomDivisor_pos (d : EtherDenomination) : 0 < denomDivisor d := by
  cases d <;> norm_num [denomDivisor]

/-- Rendering zero gives the bare string "0" at any precision. -/
theorem decimalString_zero (p : Nat) : decimalString 0 p = "0" := by
  unfold decimalString
  simp only [Nat.zero_div, Nat.zero_mod, if_pos rfl]
  rfl

/-- A hex digit evaluating to zero is the character zero. -/
theorem hexDigitVal_eq_zero (c : Char) (h : hexDigitVal c = some 0) : c = '0' := by
  unfold hexDigitVal at h
  rw [Option.map_eq_some'] at h
  obtain ⟨p, hf, hp2⟩ := h
  have hmem : p ∈ hexDigitTable := List.mem_of_find?_eq_some hf
  have hb : (fun q : Char × Nat => q.1 == c) p = true :=
    List.find?_some (p := fun q : Char × Nat => q.1 == c) hf
  have hpc : p.1 = c := eq_of_beq (by simpa using hb)
  rw [← hpc]
  fin_cases hmem <;> simp_all

/-- If a list of hexadecimal digits accumulates to zero from accumulator
`a`, then `a` is zero and the same list also accumulates to zero as
decimal digits (all its digits are the character zero). -/
theorem hexFold_zero (cs : List Char) : ∀ a : Nat,
    foldDigits 16 hexDigitVal (some a) cs = some 0 →
    a = 0 ∧ foldDigits 10 decDigitVal (some a) cs = some 0 := by
  induction cs with
  | nil =>
      intro a h
      simp only [foldDigits, Option.some.injEq] at h
      exact ⟨h, by simp [foldDigits, h]⟩
  | cons c cs ih =>
      intro a h
      simp only [foldDigits] at h
      cases hc : hexDigitVal c with
      | none => rw [hc] at h; simp at h
      | some d =>
          rw [hc] at h
          simp only [] at h
          obtain ⟨had, hdec⟩ := ih (16 * a + d) h
          have ha : a = 0 := by omega
          have hd0 : d = 0 := by omega
          have hc0 : c = '0' := hexDigitVal_eq_zero c (by rw [hc, hd0])
          subst ha
          refine ⟨rfl, ?_⟩
          simp only [foldDigits, hc0]
          have hdv : decDigitVal '0' = some 0 := rfl
          rw [hdv]
          simp only []
          have : (10 : Nat) * 0 + 0 = 16 * 0 + d := by omega
          rw [this]
          exact hdec

/-- Hex digits parsing to zero also parse to zero as decimal digits. -/
theorem parseHex_zero_parseDec (cs : List Char)
    (h : parseDigits 16 hexDigitVal cs = some 0) :
    parseDigits 10 decDigitVal cs = some 0 := by
  unfold parseDigits at h ⊢
  by_cases hcs : cs = []
  · simp [hcs] at h
  · rw [if_neg hcs] at h ⊢
    exact (hexFold_zero cs 0 h).2

/-- List version: a character list whose base-16 reading (after the `0x`
marker is stripped) is zero also reads as zero under the `Number`
coercion model. -/
theorem jsNumberChars_zero (cs : List Char)
    (h : parseDigits 16 hexDigitVal (stripHexMarker cs) = some 0) :
    jsNumberChars cs = some 0 := by
  rcases cs with _ | ⟨c1, _ | ⟨c2, rest⟩⟩
  · simp [stripHexMarker, parseDigits] at h
  · rw [stripHexMarker] at h
    rw [jsNumberChars]
    exact parseHex_zero_parseDec _ h
  · rw [stripHexMarker] at h
    rw [jsNumberChars]
    by_cases hm : c1 = '0' ∧ (c2 = 'x' ∨ c2 = 'X')
    · rw [if_pos hm] at h ⊢
      exact h
    · rw [if_neg hm] at h ⊢
      exact parseHex_zero_parseDec _ h

/-- A raw input whose base-16 reading is zero also coerces to zero under
the JavaScript `Number` coercion, so the sentinel test sees a zero. -/
theorem hexToNat_zero_jsNumber (s : String) (h : hexToNat s = some 0) :
    jsNumber s = some 0 :=
  jsNumberChars_zero s.data h

/-- The base-16 reading of a zero amount renders as the bare string "0"
for every denomination and precision. -/
theorem ethDisplayValue_zero (s : String) (denom : EtherDenomination) (p : Nat)
    (h : hexToNat s = some 0) : ethDisplayValue s denom p = "0" := by
  unfold ethDisplayValue
  rw [h]
  have hd : 0 < denomDivisor denom := denomDivisor_pos denom
  have h0 : (2 * 0 * 10 ^ p + denomDivisor denom) / (2 * denomDivisor denom) = 0 :=
    Nat.div_eq_of_lt (by omega)
  simp only []
  rw [h0]
  exact decimalString_zero p

/-! ### Claim theorems -/

/-- C1: for every hex input that coerces to a nonzero number, with no
displayValue option, when the native-currency conversion path is taken
and the denomination-converted amount rounded to the configured precision
renders as the literal string "0", the returned value is the sentinel
"<0.000001" rather than "0". -/
theorem C1_nonzero_rounding_to_zero_gives_sentinel
    (input : String) (opts : UseCurrencyOptions) (st : MetaMaskState)
    (hdv : opts.displayValue = none)
    (hpath : opts.currency = st.nativeCurrency ∨
      (opts.currency ≠ st.currentCurrency ∧ jsTruthy st.nativeCurrency = false))
    (hnz : ∃ n, jsNumber input = some n ∧ n ≠ 0)
    (h0 : ethDisplayValue input (opts.denomination.getD EtherDenomination.ETH)
      (jsOrNat opts.numberOfDecimals DEFAULT_PRECISION_DECIMALS) = "0") :
    (useCurrencyDisplay input opts st).2.value = some MIN_DISPLAY_AMOUNT := by
  obtain ⟨n, hn, hn0⟩ := hnz
  have hne : input ≠ "" := by
    intro he
    rw [he] at hn
    have hz : jsNumber "" = some 0 := rfl
    rw [hz] at hn
    exact hn0 (by simpa using hn.symm)
  have hjs : jsNumber input ≠ some 0 := by
    rw [hn]
    intro hcon
    exact hn0 (by simpa using hcon)
  rw [useCurrencyDisplay_value]
  unfold resolveValue
  rw [hdv, if_neg (by decide), if_pos hpath]
  simp only [nativeCurrencyValue]
  rw [if_pos ⟨h0, hne, hjs⟩]

/-- C1 witness: 1 wei at the default precision of 6 renders as "0", so
the hook substitutes the sentinel. -/
theorem C1_sentinel_witness :
    (useCurrencyDisplay "0x1" { currency := some "ETH" }
      { currentCurrency := some "usd", nativeCurrency := some "ETH", conversionRate := none }).2.value
      = some MIN_DISPLAY_AMOUNT :=
  C1_nonzero_rounding_to_zero_gives_sentinel "0x1"
    { currency := some "ETH" }
    { currentCurrency := some "usd", nativeCurrency := some "ETH", conversionRate := none }
    rfl (Or.inl rfl) ⟨1, by decide, by decide⟩ (by decide)

/-- C2 counterexample: the empty string is a supplied displayValue, but
JavaScript truthiness skips it and the hook converts the input instead,
so the returned value differs from the supplied displayValue. -/
theorem C2_empty_displayValue_not_verbatim :
    (useCurrencyDisplay "0xde0b6b3a7640000"
      { displayValue := some "", currency := some "ETH" }
      { nativeCurrency := some "ETH" }).2.value ≠ some "" := by decide

/-- C2 (amended): when the displayValue option is supplied and truthy
(a nonempty string), the returned value equals it exactly, regardless of
the other options, the input amount and the external state. -/
theorem C2_truthy_displayValue_verbatim
    (input : String) (opts : UseCurrencyOptions) (st : MetaMaskState)
    (h : jsTruthy opts.displayValue = true) :
    (useCurrencyDisplay input opts st).2.value = opts.displayValue := by
  rw [useCurrencyDisplay_value]
  unfold resolveValue
  rw [if_pos h]

/-- C2 witness: a nonempty displayValue is returned verbatim. -/
theorem C2_displayValue_witness :
    (useCurrencyDisplay "0x0" { displayValue := some "1.5" }
      { currentCurrency := some "usd" }).2.value = some "1.5" :=
  C2_truthy_displayValue_verbatim "0x0" { displayValue := some "1.5" }
    { currentCurrency := some "usd" } (by decide)

/-- C3: for a hex input representing zero, with no displayValue and the
native-currency path taken, the returned value is the literal "0"; the
sentinel never triggers because zero input also coerces to the number 0. -/
theorem C3_zero_input_renders_zero
    (input : String) (opts : UseCurrencyOptions) (st : MetaMaskState)
    (hdv : opts.displayValue = none)
    (hpath : opts.currency = st.nativeCurrency ∨
      (opts.currency ≠ st.currentCurrency ∧ jsTruthy st.nativeCurrency = false))
    (hz : hexToNat input = some 0) :
    (useCurrencyDisplay input opts st).2.value = some "0" := by
  have hjs : jsNumber input = some 0 := hexToNat_zero_jsNumber input hz
  have he : ethDisplayValue input (opts.denomination.getD EtherDenomination.ETH)
      (jsOrNat opts.numberOfDecimals DEFAULT_PRECISION_DECIMALS) = "0" :=
    ethDisplayValue_zero input _ _ hz
  rw [useCurrencyDisplay_value]
  unfold resolveValue
  rw [hdv, if_neg (by decide), if_pos hpath]
  simp only [nativeCurrencyValue]
  rw [if_neg (fun hcon => hcon.2.2 hjs), he]

/-- C3 witness: the zero amount renders as "0", not the sentinel. -/
theorem C3_zero_witness :
    (useCurrencyDisplay "0x0" { currency := some "ETH" }
      { nativeCurrency := some "ETH" }).2.value = some "0" :=
  C3_zero_input_renders_zero "0x0" { currency := some "ETH" }
    { nativeCurrency := some "ETH" } rfl (Or.inl rfl) (by decide)

/-- C4: with no displayValue, when neither the native-currency condition
nor the preferred-currency-with-rate condition holds, the value is null;
the embedding is a total function, so no conversion path raises. -/
theorem C4_no_conversion_path_gives_null
    (input : String) (opts : UseCurrencyOptions) (st : MetaMaskState)
    (hdv : opts.displayValue = none)
    (hnot : ¬(opts.currency = st.nativeCurrency ∨
      (opts.currency ≠ st.currentCurrency ∧ jsTruthy st.nativeCurrency = false)))
    (hno : opts.currency ≠ st.currentCurrency ∨ jsTruthyRat st.conversionRate = false) :
    (useCurrencyDisplay input opts st).2.value = none := by
  have hfiat : ¬(opts.currency = st.currentCurrency ∧ jsTruthyRat st.conversionRate = true) := by
    rintro ⟨h1, h2⟩
    rcases hno with h | h
    · exact h h1
    · rw [h] at h2
      exact Bool.false_ne_true h2
  rw [useCurrencyDisplay_value]
  unfold resolveValue
  rw [hdv, if_neg (by decide), if_neg hnot, if_neg hfiat]

/-- C4 witness: preferred fiat currency but no conversion rate. -/
theorem C4_null_witness :
    (useCurrencyDisplay "0x1" { currency := some "usd" }
      { currentCurrency := some "usd", nativeCurrency := some "ETH",
        conversionRate := none }).2.value = none :=
  C4_no_conversion_path_gives_null "0x1" { currency := some "usd" }
    { currentCurrency := some "usd", nativeCurrency := some "ETH", conversionRate := none }
    rfl (by decide) (Or.inr rfl)

/-- C5: when hideLabel is set, the suffix component is undefined and the
composed string is just the prefix and value with nothing appended, even
when a caller-supplied suffix or a currency code is present. -/
theorem C5_hideLabel_suppresses_suffix
    (input : String) (opts : UseCurrencyOptions) (st : MetaMaskState)
    (h : opts.hideLabel = true) :
    (useCurrencyDisplay input opts st).2.suffix = none ∧
    (useCurrencyDisplay input opts st).1 =
      opts.pfx.getD "" ++ (resolveValue input opts st).getD "null" := by
  have hs : resolveSuffix opts = none := by
    unfold resolveSuffix
    rw [if_pos h]
  refine ⟨by rw [useCurrencyDisplay_suffix]; exact hs, ?_⟩
  show opts.pfx.getD "" ++ (resolveValue input opts st).getD "null" ++
      (if jsTruthy (resolveSuffix opts) then " " ++ (resolveSuffix opts).getD "" else "") = _
  rw [hs]
  simp [jsTruthy]

/-- C5 witness: hideLabel wins over both a supplied suffix and a
currency code. -/
theorem C5_hideLabel_witness :
    (useCurrencyDisplay "0x0"
      { currency := some "usd", suffix := some "DOGE", hideLabel := true }
      { currentCurrency := some "usd", nativeCurrency := some "ETH",
        conversionRate := some 2 }).2.suffix = none ∧
    (useCurrencyDisplay "0x0"
      { currency := some "usd", suffix := some "DOGE", hideLabel := true }
      { currentCurrency := some "usd", nativeCurrency := some "ETH",
        conversionRate := some 2 }).1 =
      (({ currency := some "usd", suffix := some "DOGE", hideLabel := true } :
        UseCurrencyOptions).pfx).getD "" ++
        (resolveValue "0x0"
          { currency := some "usd", suffix := some "DOGE", hideLabel := true }
          { currentCurrency := some "usd", nativeCurrency := some "ETH",
            conversionRate := some 2 }).getD "null" :=
  C5_hideLabel_suppresses_suffix "0x0"
    { currency := some "usd", suffix := some "DOGE", hideLabel := true }
    { currentCurrency := some "usd", nativeCurrency := some "ETH", conversionRate := some 2 }
    rfl

/-- C6: without hideLabel and without a caller-supplied suffix, the
suffix is the currency code itself when it is one of the test-network
ticker symbols, and the upper-cased currency code otherwise. -/
theorem C6_suffix_ticker_casing
    (input : String) (opts : UseCurrencyOptions) (st : MetaMaskState) (c : String)
    (hh : opts.hideLabel = false)
    (hs : opts.suffix = none)
    (hc : opts.currency = some c) :
    (useCurrencyDisplay input opts st).2.suffix =
      some (if c ∈ TEST_NETWORK_TICKER_VALUES then c else c.toUpper) := by
  rw [useCurrencyDisplay_suffix]
  unfold resolveSuffix
  rw [if_neg (by simp [hh]), hc, hs]
  unfold jsOrStr
  rw [if_neg (by decide)]
  simp only [tickerIncludes]
  by_cases hmem : c ∈ TEST_NETWORK_TICKER_VALUES
  · rw [if_pos (decide_eq_true hmem), if_pos hmem]
  · rw [if_neg (fun hd => hmem (of_decide_eq_true hd)), if_neg hmem]
    rfl

/-- C6 witness: a test-network ticker keeps its casing. -/
theorem C6_ticker_witness :
    (useCurrencyDisplay "0x0" { currency := some "SepoliaETH" } {}).2.suffix =
      some (if "SepoliaETH" ∈ TEST_NETWORK_TICKER_VALUES then "SepoliaETH"
        else String.toUpper "SepoliaETH") :=
  C6_suffix_ticker_casing "0x0" { currency := some "SepoliaETH" } {} "SepoliaETH"
    rfl rfl rfl

/-- C7: when numberOfDecimals is absent, the native-currency path rounds
to 6 decimal places and the fiat path converts with 2 decimal places. -/
theorem C7_default_precisions
    (input : String) (opts : UseCurrencyOptions) (c nc : String) (r : ℚ)
    (hdv : opts.displayValue = none)
    (hnod : opts.numberOfDecimals = none)
    (hcur : opts.currency = some c)
    (hne : c ≠ nc) (hr : r ≠ 0) :
    (useCurrencyDisplay input opts
        { currentCurrency := none, nativeCurrency := some c, conversionRate := some r }).2.value =
      some (nativeCurrencyValue input (opts.denomination.getD EtherDenomination.ETH) 6) ∧
    (useCurrencyDisplay input opts
        { currentCurrency := some c, nativeCurrency := some nc, conversionRate := some r }).2.value =
      some (formatCurrency
        (getValueFromWeiHex input (some nc) (some c) (some r) 2 opts.denomination)
        (some c)) := by
  constructor
  · rw [useCurrencyDisplay_value]
    unfold resolveValue
    rw [hdv, if_neg (by decide), if_pos (Or.inl (by rw [hcur])), hnod]
    rfl
  · rw [useCurrencyDisplay_value]
    unfold resolveValue
    have hnot : ¬(opts.currency = some nc ∨ (opts.currency ≠ some c ∧ jsTruthy (some nc) = false)) := by
      rintro (h1 | ⟨h2, h3⟩)
      · rw [hcur] at h1
        exact hne (by simpa using h1)
      · exact h2 hcur
    rw [hdv, if_neg (by decide), if_neg hnot,
      if_pos ⟨hcur, decide_eq_true hr⟩, hnod, hcur]
    rfl

/-- C7 witness: concrete instantiation of both default precisions. -/
theorem C7_defaults_witness :
    (useCurrencyDisplay "0x1" { currency := some "usd" }
        { currentCurrency := none, nativeCurrency := some "usd", conversionRate := some 2000 }).2.value =
      some (nativeCurrencyValue "0x1" EtherDenomination.ETH 6) ∧
    (useCurrencyDisplay "0x1" { currency := some "usd" }
        { currentCurrency := some "usd", nativeCurrency := some "ETH", conversionRate := some 2000 }).2.value =
      some (formatCurrency
        (getValueFromWeiHex "0x1" (some "ETH") (some "usd") (some 2000) 2 none)
        (some "usd")) :=
  C7_default_precisions "0x1" { currency := some "usd" } "usd" "ETH" 2000
    rfl rfl rfl (by decide) (by decide)

/-- C8: when the target currency equals the native currency the output is
independent of the conversion rate, and the value comes from the
displayValue or native-denomination path, never the fiat path. -/
theorem C8_native_currency_rate_independent
    (input : String) (opts : UseCurrencyOptions) (st : MetaMaskState) (r1 r2 : Option ℚ)
    (h : opts.currency = st.nativeCurrency) :
    useCurrencyDisplay input opts { st with conversionRate := r1 } =
      useCurrencyDisplay input opts { st with conversionRate := r2 } ∧
    (useCurrencyDisplay input opts { st with conversionRate := r1 }).2.value =
      (if jsTruthy opts.displayValue then opts.displayValue
       else some (nativeCurrencyValue input (opts.denomination.getD EtherDenomination.ETH)
         (jsOrNat opts.numberOfDecimals DEFAULT_PRECISION_DECIMALS))) := by
  have hval : ∀ r : Option ℚ, resolveValue input opts { st with conversionRate := r } =
      (if jsTruthy opts.displayValue then opts.displayValue
       else some (nativeCurrencyValue input (opts.denomination.getD EtherDenomination.ETH)
         (jsOrNat opts.numberOfDecimals DEFAULT_PRECISION_DECIMALS))) := by
    intro r
    unfold resolveValue
    by_cases hd : jsTruthy opts.displayValue = true
    · rw [if_pos hd, if_pos hd]
    · rw [if_neg hd, if_neg hd, if_pos (Or.inl h)]
  constructor
  · unfold useCurrencyDisplay
    rw [hval r1, hval r2]
  · rw [useCurrencyDisplay_value, hval r1]

/-- C8 witness: two different rates give identical output on the native
path. -/
theorem C8_rate_witness :
    useCurrencyDisplay "0x1" { currency := some "eth" }
        { currentCurrency := some "usd", nativeCurrency := some "eth",
          conversionRate := some 5 } =
      useCurrencyDisplay "0x1" { currency := some "eth" }
        { currentCurrency := some "usd", nativeCurrency := some "eth",
          conversionRate := none } ∧
    (useCurrencyDisplay "0x1" { currency := some "eth" }
        { currentCurrency := some "usd", nativeCurrency := some "eth",
          conversionRate := some 5 }).2.value =
      some (nativeCurrencyValue "0x1" EtherDenomination.ETH 6) :=
  C8_native_currency_rate_independent "0x1" { currency := some "eth" }
    { currentCurrency := some "usd", nativeCurrency := some "eth", conversionRate := none }
    (some 5) none rfl

/-- C9: the composed display string is exactly prefix (defaulted to the
empty string) followed by the value and, when the suffix is a nonempty
string, a single space and the suffix; the second tuple component is the
record of those same parts, with the prefix option passed through. -/
theorem C9_string_assembly
    (input : String) (opts : UseCurrencyOptions) (st : MetaMaskState) :
    (useCurrencyDisplay input opts st).1 =
      ((useCurrencyDisplay input opts st).2.pfx).getD "" ++
        ((useCurrencyDisplay input opts st).2.value).getD "null" ++
        (if jsTruthy (useCurrencyDisplay input opts st).2.suffix then
          " " ++ ((useCurrencyDisplay input opts st).2.suffix).getD "" else "") ∧
    (useCurrencyDisplay input opts st).2 =
      { pfx := opts.pfx, value := resolveValue input opts st,
        suffix := resolveSuffix opts } :=
  ⟨rfl, rfl⟩

/-- C10: a supplied numberOfDecimals of 0 is falsy under `||`, so the
hook behaves exactly as if the option were absent and the path defaults
(6 native, 2 fiat) apply. -/
theorem C10_zero_decimals_is_absent
    (input : String) (opts : UseCurrencyOptions) (st : MetaMaskState) :
    useCurrencyDisplay input { opts with numberOfDecimals := some 0 } st =
      useCurrencyDisplay input { opts with numberOfDecimals := none } st := rfl
